import Mathlib

/-!
Verification development for the reddit-save batch downloader.

The program reads a CSV file of Reddit post identifiers, fetches metadata for
each post, applies skip/placement policies, writes metadata and delegates media
download, and maintains a `failed.csv` ledger merged across runs.

Strings manipulated by the script (file contents, CSV rows, paths) are modelled
as `List Char`; JavaScript string concatenation is `List.append` and the parts
of `String.prototype.includes`, `csv.parse` and `Set` deduplication that the
script exercises are modelled by explicit functions below.
-/

/-- Split a character list at every occurrence of `sep`, in the manner of
`String.prototype.split`; the separators are consumed.  Used to model the csv
parser's line and column splitting (the repository's input files use no quoted
fields, so the quoting features of the csv library are not exercised). -/
def splitOnChar (sep : Char) : List Char → List (List Char)
  | [] => [[]]
  | c :: cs =>
      let rest := splitOnChar sep cs
      if c = sep then [] :: rest
      else
        match rest with
        | [] => [[c]]
        | r :: rs => (c :: r) :: rs

/-- Join a list of rows with a separator character, in the manner of
`Array.prototype.join`. -/
def joinWithChar (sep : Char) : List (List Char) → List Char
  | [] => []
  | [x] => x
  | x :: y :: xs => x ++ sep :: joinWithChar sep (y :: xs)

/-- Model of the csv parser's `comment: '#'` option: the part of a line before
the first `'#'`. -/
def stripComment (l : List Char) : List Char := l.takeWhile (fun c => c ≠ '#')

/-- The first CSV column of a row: the characters before the first comma.
This is `record[0]` for an unquoted csv record. -/
def firstColumn (l : List Char) : List Char := l.takeWhile (fun c => c ≠ ',')

/-- Model of JavaScript `s.includes(sub)`: substring containment. -/
def jsIncludes (s sub : List Char) : Bool := decide (sub <:+: s)

/-- Worker for `jsSetDedupe`, keeping the set of already seen elements. -/
def dedupeSeen {α} [DecidableEq α] (seen : List α) : List α → List α
  | [] => []
  | x :: xs => if x ∈ seen then dedupeSeen seen xs else x :: dedupeSeen (x :: seen) xs

/-- Model of JavaScript `[...new Set(l)]`: remove duplicates, keeping the first
occurrence of each element, preserving insertion order. -/
def jsSetDedupe {α} [DecidableEq α] (l : List α) : List α := dedupeSeen [] l

/-!  Identifier Source (`getLinks`, src/unnamed/part_000 lines 273-283).

`getLinks` parses the file with `from_line: 2` (the header line is skipped),
`skip_empty_lines: true` and `comment: '#'`, and maps each record to its first
column.  The csv library's optional column-count validation is a behavior of
the external parser and is not modelled; none of the inputs considered here
trigger it. -/

/-- The csv records of a file body: split into lines, drop the header line,
strip comments, drop lines that are then empty. -/
def dataRecords (content : List Char) : List (List Char) :=
  (((splitOnChar '\n' content).drop 1).map stripComment).filter (fun l => l ≠ [])

/-- Embedding of `getLinks` (src/unnamed/part_000 lines 273-283): the first
column of every data record of the file. -/
def getLinks (content : List Char) : List (List Char) :=
  (dataRecords content).map firstColumn

/-!  Data model of the orchestrator loop (src/unnamed/part_000 lines 441-521). -/

/-- Classification of one processed identifier: which of the three reporting
functions (`downloaded`, `skipped`, `failed`) the loop called for it. -/
inductive Outcome
  | downloaded
  | skipped
  | failed
deriving DecidableEq, Repr

/-- Placement decision taken by the policy checks: normal subreddit directory,
alternate `deleted/` directory, or skip. -/
inductive Decision
  | normal
  | alternate
  | skip
deriving DecidableEq, Repr

/-- Oracle for the filesystem faults the loop's second `try` block can hit:
`mkdirSync` throwing, or `WritePostData` throwing (when it runs). -/
inductive ProcFailure
  | noFailure
  | atMkdir
  | atWrite
deriving DecidableEq, Repr

/-- The command-line options consulted by the loop (parsed at
src/unnamed/part_000 lines 24-76; hyphenated names are camel-cased). -/
structure Options where
  outputDirectory : List Char
  nsfwOnly : Bool
  mediaOnly : Bool
  saveDeleted : Bool
  verbose : Bool
deriving DecidableEq, Repr

/-- The `Post` record type (src/unnamed/part_000 lines 285-307), flattened
from its `data`/`content` nesting. -/
structure Post where
  id : List Char
  author : List Char
  author_fullname : List Char
  subreddit : List Char
  permalink : List Char
  created_utc : Int
  created : Int
  downvotes : Int
  upvotes : Int
  score : Int
  over_18 : Bool
  removed_by_category : Option (List Char)
  title : List Char
  selftext : List Char
  thumbnail : List Char
  domain : List Char
  url : List Char
deriving DecidableEq, Repr

/-- Per-item filesystem/network oracle: whether `mkdirSync`/`WritePostData`
throw, and whether the thumbnail request succeeds. -/
structure FsOracle where
  procFailure : ProcFailure
  thumbnailOk : Bool
deriving DecidableEq, Repr

/-- Observable effects of processing one identifier: the classification, the
policy decision taken (ghost instrumentation of the branch; `none` when the
fetch failed before any decision), the row pushed onto `postsFailed`, and the
filesystem / subprocess effects. -/
structure StepResult where
  outcome : Outcome
  decision : Option Decision
  ledgerEntry : Option (List Char)
  dirCreated : Option (List Char)
  wrotePostJson : Option (List Char)
  thumbnailRequest : Option (List Char)
  thumbnailWritten : Option (List Char)
  galleryDl : Option (List Char × List Char)
deriving DecidableEq, Repr

/-- The removal sentinel compared against the post body
(src/unnamed/part_000 line 486). -/
def removalSentinel : List Char := "[removed]".toList

/-- Normal post directory: `output-directory + '/' + subreddit + '/' + id`
(src/unnamed/part_000 line 480). -/
def normalDir (opts : Options) (post : Post) : List Char :=
  opts.outputDirectory ++ ("/").toList ++ post.subreddit ++ ("/").toList ++ post.id

/-- Alternate directory for removed posts:
`output-directory + '/deleted/' + subreddit + '/' + id`
(src/unnamed/part_000 line 489). -/
def deletedDir (opts : Options) (post : Post) : List Char :=
  opts.outputDirectory ++ ("/deleted/").toList ++ post.subreddit ++ ("/").toList ++ post.id

/-- Result of an iteration that exits through `skipped(id); continue`. -/
def skipResult : StepResult :=
  { outcome := .skipped, decision := some .skip, ledgerEntry := none,
    dirCreated := none, wrotePostJson := none, thumbnailRequest := none,
    thumbnailWritten := none, galleryDl := none }

/-- Result of an iteration that throws in the second `try` block and lands in
its `catch` (src/unnamed/part_000 lines 516-520): the ledger row is
`id + ',' + 'https://www.reddit.com' + permalink`. -/
def processingFailedResult (id : List Char) (post : Post) (dec : Decision)
    (dirMade : Option (List Char)) : StepResult :=
  { outcome := .failed, decision := some dec,
    ledgerEntry := some (id ++ (",https://www.reddit.com").toList ++ post.permalink),
    dirCreated := dirMade, wrotePostJson := none, thumbnailRequest := none,
    thumbnailWritten := none, galleryDl := none }

/-- The tail of a successful iteration (src/unnamed/part_000 lines 510-515):
thumbnail attempt only when the thumbnail field does not contain "http"
(failure swallowed), then the fire-and-forget gallery-dl invocation against a
`content` subdirectory, then `downloaded`. -/
def deliverMedia (post : Post) (dir : List Char) (dec : Decision)
    (wrote : Option (List Char)) (fsO : FsOracle) : StepResult :=
  { outcome := .downloaded, decision := some dec, ledgerEntry := none,
    dirCreated := some dir, wrotePostJson := wrote,
    thumbnailRequest :=
      if jsIncludes post.thumbnail ("http").toList then none else some post.thumbnail,
    thumbnailWritten :=
      if jsIncludes post.thumbnail ("http").toList then none
      else if fsO.thumbnailOk then some (dir ++ ("/thumbnail.jpg").toList) else none,
    galleryDl := some (post.url, dir ++ ("/content").toList) }

/-- The placement / write / download stage (src/unnamed/part_000 lines
504-515): `mkdirSync`, then `WritePostData` unless media-only, then media
delivery; a throw from `mkdirSync` or `WritePostData` lands in the `catch`. -/
def downloadStep (opts : Options) (id : List Char) (post : Post)
    (dir : List Char) (dec : Decision) (fsO : FsOracle) : StepResult :=
  match fsO.procFailure with
  | .atMkdir => processingFailedResult id post dec none
  | .atWrite =>
      if opts.mediaOnly then
        deliverMedia post dir dec none fsO
      else processingFailedResult id post dec (some dir)
  | .noFailure =>
      deliverMedia post dir dec
        (if opts.mediaOnly then none else some (dir ++ ("/post.json").toList)) fsO

/-- The nsfw-only check reached after the removal check (src/unnamed/part_000
lines 497-502), with the post directory and (ghost) decision already chosen:
skip when nsfw-only is set and the post is not over 18, else proceed. -/
def nsfwStage (opts : Options) (id : List Char) (post : Post)
    (dir : List Char) (dec : Decision) (fsO : FsOracle) : StepResult :=
  if opts.nsfwOnly && !post.over_18 then skipResult
  else downloadStep opts id post dir dec fsO

/-- Embedding of the loop body after a successful metadata fetch
(src/unnamed/part_000 lines 479-520).  The removal check comes first: a post
whose selftext equals the removal sentinel is skipped unless save-deleted is
set, in which case the directory is redirected to `deleted/` and control flows
on to the nsfw-only check, exactly as in the source. -/
def processFetched (opts : Options) (id : List Char) (post : Post)
    (fsO : FsOracle) : StepResult :=
  if post.selftext = removalSentinel then
    if opts.saveDeleted then
      nsfwStage opts id post (deletedDir opts post) .alternate fsO
    else skipResult
  else nsfwStage opts id post (normalDir opts post) .normal fsO

/-- Embedding of one full loop iteration (src/unnamed/part_000 lines 441-521).
`fetchResult` is the outcome of the metadata fetch: `none` when any awaited
field threw, in which case the ledger row `id + ',' +
'https://www.reddit.com/' + id` is pushed and the iteration ends in `failed`
(lines 473-477). -/
def processId (opts : Options) (id : List Char) (fetchResult : Option Post)
    (fsO : FsOracle) : StepResult :=
  match fetchResult with
  | none =>
      { outcome := .failed, decision := none,
        ledgerEntry := some (id ++ (",https://www.reddit.com/").toList ++ id),
        dirCreated := none, wrotePostJson := none, thumbnailRequest := none,
        thumbnailWritten := none, galleryDl := none }
  | some post => processFetched opts id post fsO

/-- The whole batch loop: each identifier from the input is processed exactly
once, in order, against the fetch and filesystem environments. -/
def runBatch (opts : Options) (ids : List (List Char))
    (fetch : List Char → Option Post) (fsE : List Char → FsOracle) :
    List StepResult :=
  ids.map (fun id => processId opts id (fetch id) (fsE id))

/-- The `postsFailed` accumulator at the end of the batch: the ledger rows of
the iterations that pushed one, in order. -/
def extractFailures (results : List StepResult) : List (List Char) :=
  results.filterMap (fun r => r.ledgerEntry)

/-!  Outcome Ledger finalization (src/unnamed/part_000 lines 393-405):
read `failed.csv` back through `getLinks` if it exists, append the run's
failures, deduplicate with a `Set`, and rewrite the file as
`'id,permalink\n' + rows.join('\n')`. -/

/-- The `existingPostsFailed` value (src/unnamed/part_000 line 395): the
result of `getLinks` on the pre-existing `failed.csv` when it exists, `[]`
when it does not. -/
def existingFailedIds (existingContent : Option (List Char)) : List (List Char) :=
  match existingContent with
  | some c => getLinks c
  | none => []

/-- The merged row list written to `failed.csv`: the first columns of any
pre-existing file (`getLinks`), followed by the run's own failure rows,
deduplicated as strings (src/unnamed/part_000 lines 395-398).  `none` models
an absent pre-existing file. -/
def mergedFailedRows (existingContent : Option (List Char))
    (postsFailed : List (List Char)) : List (List Char) :=
  jsSetDedupe (existingFailedIds existingContent ++ postsFailed)

/-- Serialization of the rewritten `failed.csv`
(src/unnamed/part_000 line 401). -/
def writeFailedCsv (rows : List (List Char)) : List Char :=
  ("id,permalink\n").toList ++ joinWithChar '\n' rows

/-- The full finalize step: byte content of the rewritten failure file. -/
def finalizeLedger (existingContent : Option (List Char))
    (postsFailed : List (List Char)) : List Char :=
  writeFailedCsv (mergedFailedRows existingContent postsFailed)

/-- Mirror of the policy precedence as the code actually implements it, in the
spec's vocabulary, for comparison with `processFetched` (this is the amended
form of the spec's section 4.3: the nsfw-only test also applies to
removal-classified records that survive the save-deleted check). -/
def policyDecisionSpec (opts : Options) (post : Post) : Decision :=
  if post.selftext = removalSentinel ∧ opts.saveDeleted = false then .skip
  else if opts.nsfwOnly = true ∧ post.over_18 = false then .skip
  else if post.selftext = removalSentinel then .alternate
  else .normal

/-!  Concrete sample values used by counterexamples and witnesses. -/

/-- A sample post that is removal-classified (selftext is the sentinel) and
not adult-flagged. -/
def removedSfwPost : Post :=
  { id := ("p1").toList, author := ("au").toList, author_fullname := ("t2_au").toList,
    subreddit := ("r/pics").toList, permalink := ("/r/pics/comments/p1/t/").toList,
    created_utc := 0, created := 0, downvotes := 0, upvotes := 1, score := 1,
    over_18 := false, removed_by_category := some ("deleted").toList,
    title := ("t").toList, selftext := ("[removed]").toList,
    thumbnail := ("self").toList, domain := ("self.pics").toList,
    url := ("https://example.com/p1").toList }

/-- A sample ordinary post: not removal-classified, adult-flagged, thumbnail an
http URL. -/
def plainPost : Post :=
  { id := ("p2").toList, author := ("au").toList, author_fullname := ("t2_au").toList,
    subreddit := ("r/pics").toList, permalink := ("/r/pics/comments/p2/t/").toList,
    created_utc := 0, created := 0, downvotes := 0, upvotes := 1, score := 1,
    over_18 := true, removed_by_category := none,
    title := ("t").toList, selftext := ("hello").toList,
    thumbnail := ("https://a.thumbs.example/x.jpg").toList, domain := ("i.example").toList,
    url := ("https://example.com/p2").toList }

/-- Default options with all policies off. -/
def baseOptions : Options :=
  { outputDirectory := ("posts").toList, nsfwOnly := false, mediaOnly := false,
    saveDeleted := false, verbose := false }

/-- A clean filesystem oracle: nothing throws, the thumbnail request
succeeds. -/
def cleanFs : FsOracle := { procFailure := .noFailure, thumbnailOk := true }

/-!  Helper lemmas about the string primitives. -/

theorem mem_of_mem_takeWhileP {α} (p : α → Bool) (x : α) (l : List α)
    (h : x ∈ l.takeWhile p) : x ∈ l := by
  induction l with
  | nil => simp at h
  | cons a l ih =>
    rw [List.takeWhile_cons] at h
    by_cases hp : p a
    · simp only [hp, if_true, List.mem_cons] at h
      rcases h with h | h
      · simp [h]
      · exact List.mem_cons_of_mem _ (ih h)
    · simp [hp] at h

theorem sep_not_mem_takeWhile_ne (sep : Char) (l : List Char) :
    sep ∉ l.takeWhile (fun c => c ≠ sep) := by
  intro h
  have := List.mem_takeWhile_imp h
  simp at this

theorem comma_not_mem_firstColumn (l : List Char) : (',') ∉ firstColumn l :=
  sep_not_mem_takeWhile_ne ',' l

theorem hash_not_mem_stripComment (l : List Char) : ('#') ∉ stripComment l :=
  sep_not_mem_takeWhile_ne '#' l

theorem firstColumn_firstColumn (l : List Char) :
    firstColumn (firstColumn l) = firstColumn l :=
  List.takeWhile_idem

theorem stripComment_eq_self (l : List Char) (h : ('#') ∉ l) :
    stripComment l = l := by
  apply List.takeWhile_eq_self_iff.mpr
  intro x hx
  simp only [ne_eq, decide_eq_true_eq]
  rintro rfl
  exact h hx

theorem not_mem_firstColumn_of_not_mem (c : Char) (l : List Char) (h : c ∉ l) :
    c ∉ firstColumn l :=
  fun hc => h (mem_of_mem_takeWhileP _ _ _ hc)

theorem splitOnChar_cons (sep c : Char) (cs : List Char) :
    splitOnChar sep (c :: cs) =
      if c = sep then [] :: splitOnChar sep cs
      else
        match splitOnChar sep cs with
        | [] => [[c]]
        | r :: rs => (c :: r) :: rs := rfl

theorem splitOnChar_ne_nil (sep : Char) (l : List Char) :
    splitOnChar sep l ≠ [] := by
  induction l with
  | nil => simp [splitOnChar]
  | cons c cs ih =>
    rw [splitOnChar_cons]
    split
    · simp
    · split
      · simp
      · simp

theorem not_mem_of_mem_splitOnChar (sep : Char) (l : List Char) (x : List Char)
    (hx : x ∈ splitOnChar sep l) : sep ∉ x := by
  induction l generalizing x with
  | nil =>
    simp only [splitOnChar, List.mem_singleton] at hx
    simp [hx]
  | cons c cs ih =>
    rw [splitOnChar_cons] at hx
    by_cases hc : c = sep
    · simp only [hc, if_true, List.mem_cons] at hx
      rcases hx with rfl | hx
      · simp
      · exact ih x hx
    · simp only [hc, if_false] at hx
      cases hrest : splitOnChar sep cs with
      | nil => exact absurd hrest (splitOnChar_ne_nil sep cs)
      | cons r rs =>
        rw [hrest] at hx
        rcases List.mem_cons.mp hx with rfl | hx
        · intro hmem
          rcases List.mem_cons.mp hmem with rfl | hmem
          · exact hc rfl
          · exact ih r (hrest ▸ List.mem_cons_self r rs) hmem
        · exact ih x (hrest ▸ List.mem_cons_of_mem r hx)

theorem splitOnChar_of_not_mem (sep : Char) (l : List Char) (h : sep ∉ l) :
    splitOnChar sep l = [l] := by
  induction l with
  | nil => rfl
  | cons c cs ih =>
    have hc : ¬c = sep := fun hc => h (hc ▸ List.mem_cons_self c cs)
    have hcs : sep ∉ cs := fun hm => h (List.mem_cons_of_mem c hm)
    rw [splitOnChar_cons, if_neg hc, ih hcs]

theorem splitOnChar_append_cons (sep : Char) (a b : List Char) (ha : sep ∉ a) :
    splitOnChar sep (a ++ sep :: b) = a :: splitOnChar sep b := by
  induction a with
  | nil => simp [splitOnChar_cons]
  | cons c cs ih =>
    have hc : ¬c = sep := fun hc => ha (hc ▸ List.mem_cons_self c cs)
    have hcs : sep ∉ cs := fun hm => ha (List.mem_cons_of_mem c hm)
    rw [List.cons_append, splitOnChar_cons, if_neg hc, ih hcs]

theorem splitOnChar_joinWithChar (sep : Char) (L : List (List Char))
    (hne : L ≠ []) (h : ∀ x ∈ L, sep ∉ x) :
    splitOnChar sep (joinWithChar sep L) = L := by
  induction L with
  | nil => exact absurd rfl hne
  | cons x xs ih =>
    cases xs with
    | nil =>
      exact splitOnChar_of_not_mem sep x (h x (List.mem_cons_self x []))
    | cons y ys =>
      have hx : sep ∉ x := h x (List.mem_cons_self x (y :: ys))
      show splitOnChar sep (x ++ sep :: joinWithChar sep (y :: ys)) = x :: y :: ys
      rw [splitOnChar_append_cons sep x _ hx,
        ih (by simp) (fun z hz => h z (List.mem_cons_of_mem x hz))]

theorem mem_dedupeSeen {α} [DecidableEq α] (x : α) (l : List α) :
    ∀ seen, x ∈ dedupeSeen seen l ↔ x ∈ l ∧ x ∉ seen := by
  induction l with
  | nil => intro seen; simp [dedupeSeen]
  | cons a l ih =>
    intro seen
    simp only [dedupeSeen]
    split
    · rename_i ha
      rw [ih seen]
      constructor
      · rintro ⟨h1, h2⟩
        exact ⟨List.mem_cons_of_mem a h1, h2⟩
      · rintro ⟨h1, h2⟩
        rcases List.mem_cons.mp h1 with rfl | h1
        · exact absurd ha h2
        · exact ⟨h1, h2⟩
    · rename_i ha
      rw [List.mem_cons, ih (a :: seen)]
      constructor
      · rintro (h | ⟨h1, h2⟩)
        · subst h
          exact ⟨List.mem_cons_self _ _, ha⟩
        · rw [List.mem_cons] at h2
          push_neg at h2
          exact ⟨List.mem_cons_of_mem a h1, h2.2⟩
      · rintro ⟨h1, h2⟩
        rcases List.mem_cons.mp h1 with rfl | h1
        · exact Or.inl rfl
        · by_cases hx : x = a
          · exact Or.inl hx
          · refine Or.inr ⟨h1, ?_⟩
            rw [List.mem_cons]
            push_neg
            exact ⟨hx, h2⟩

theorem mem_jsSetDedupe {α} [DecidableEq α] (x : α) (l : List α) :
    x ∈ jsSetDedupe l ↔ x ∈ l := by
  rw [jsSetDedupe, mem_dedupeSeen]
  simp

theorem nodup_dedupeSeen {α} [DecidableEq α] (l : List α) :
    ∀ seen, (dedupeSeen seen l).Nodup := by
  induction l with
  | nil => intro seen; simp [dedupeSeen]
  | cons a l ih =>
    intro seen
    simp only [dedupeSeen]
    split
    · exact ih seen
    · refine List.nodup_cons.mpr ⟨?_, ih (a :: seen)⟩
      intro hmem
      rw [mem_dedupeSeen] at hmem
      exact hmem.2 (List.mem_cons_self a seen)

theorem getLinks_no_newline (c : List Char) : ∀ x ∈ getLinks c, ('\n') ∉ x := by
  intro x hx
  obtain ⟨rec, hrec, hfc⟩ := List.mem_map.1 hx
  obtain ⟨hrec', _⟩ := List.mem_filter.1 hrec
  obtain ⟨line, hline, hsc⟩ := List.mem_map.1 hrec'
  have h1 : ('\n') ∉ line :=
    not_mem_of_mem_splitOnChar '\n' c line (List.mem_of_mem_drop hline)
  subst hfc
  subst hsc
  intro hmem
  exact h1 (mem_of_mem_takeWhileP _ _ _ (mem_of_mem_takeWhileP _ _ _ hmem))

theorem getLinks_no_hash (c : List Char) : ∀ x ∈ getLinks c, ('#') ∉ x := by
  intro x hx
  obtain ⟨rec, hrec, hfc⟩ := List.mem_map.1 hx
  obtain ⟨hrec', _⟩ := List.mem_filter.1 hrec
  obtain ⟨line, hline, hsc⟩ := List.mem_map.1 hrec'
  subst hfc
  subst hsc
  exact not_mem_firstColumn_of_not_mem '#' _ (hash_not_mem_stripComment line)

theorem getLinks_writeFailedCsv (rows : List (List Char)) (hne : rows ≠ [])
    (hn : ∀ r ∈ rows, ('\n') ∉ r) (hh : ∀ r ∈ rows, ('#') ∉ r)
    (hz : ∀ r ∈ rows, r ≠ []) :
    getLinks (writeFailedCsv rows) = rows.map firstColumn := by
  have hheader : (("id,permalink\n").toList : List Char) =
      ("id,permalink").toList ++ ['\n'] := rfl
  have hsplit : splitOnChar '\n' (writeFailedCsv rows) =
      ("id,permalink").toList :: rows := by
    rw [writeFailedCsv, hheader, List.append_assoc, List.singleton_append,
      splitOnChar_append_cons '\n' _ _ (by decide),
      splitOnChar_joinWithChar '\n' rows hne hn]
  unfold getLinks dataRecords
  rw [hsplit]
  rw [show (((("id,permalink").toList : List Char) :: rows).drop 1) = rows from rfl]
  have hmap : rows.map stripComment = rows := by
    have h1 : ∀ r ∈ rows, stripComment r = r := fun r hr =>
      stripComment_eq_self r (hh r hr)
    calc rows.map stripComment = rows.map id := List.map_congr_left h1
      _ = rows := List.map_id rows
  rw [hmap]
  rw [List.filter_eq_self.mpr (fun r hr => by simpa using hz r hr)]


/-!  Claim theorems. -/

/-- Claim C1 is false on the code: a removal-classified record (selftext equal
to the removal sentinel) processed with save-deleted enabled is NOT decided
Alternate regardless of the nsfw-only policy and the adult flag — with
nsfw-only enabled and the record not adult-flagged the loop skips it, because
the nsfw-only check also runs on the save-deleted path. -/
theorem policy_precedence_counterexample :
    removedSfwPost.selftext = removalSentinel ∧
    ({ baseOptions with saveDeleted := true, nsfwOnly := true } : Options).saveDeleted = true ∧
    removedSfwPost.over_18 = false ∧
    (processFetched { baseOptions with saveDeleted := true, nsfwOnly := true }
      (("p1").toList) removedSfwPost cleanFs).decision ≠ some Decision.alternate ∧
    (processFetched { baseOptions with saveDeleted := true, nsfwOnly := true }
      (("p1").toList) removedSfwPost cleanFs).decision = some Decision.skip ∧
    (processFetched { baseOptions with saveDeleted := true, nsfwOnly := true }
      (("p1").toList) removedSfwPost cleanFs).outcome = Outcome.skipped := by
  decide

/-- Claim C1, amended: the Policy Evaluator's precedence as implemented is —
a removal-classified record with save-deleted disabled is decided Skip; any
other record (including a removal-classified one with save-deleted enabled) is
then subject to the nsfw-only test, deciding Skip when nsfw-only is enabled
and the record is not adult-flagged; what remains is decided Alternate when
removal-classified and Normal otherwise. -/
theorem policy_precedence_amended (opts : Options) (id : List Char)
    (post : Post) (fsO : FsOracle) :
    (processFetched opts id post fsO).decision = some (policyDecisionSpec opts post) := by
  unfold processFetched policyDecisionSpec nsfwStage downloadStep deliverMedia
    processingFailedResult skipResult
  by_cases h1 : post.selftext = removalSentinel <;>
    cases h2 : opts.saveDeleted <;>
    cases h3 : opts.nsfwOnly <;>
    cases h4 : post.over_18 <;>
    cases hf : fsO.procFailure <;>
    cases hm : opts.mediaOnly <;>
    simp [h1, h2, h3, h4, hf, hm]

/-- Claim C5: when the nsfw-only policy is enabled and the fetched record is
not adult-flagged, the identifier is classified skipped and no directory is
created for it, regardless of removal classification and of the save-deleted
policy. -/
theorem nsfw_only_skip (opts : Options) (id : List Char) (post : Post)
    (fsO : FsOracle) (h1 : opts.nsfwOnly = true) (h2 : post.over_18 = false) :
    (processFetched opts id post fsO).outcome = Outcome.skipped ∧
    (processFetched opts id post fsO).dirCreated = none ∧
    (processFetched opts id post fsO).decision = some Decision.skip := by
  unfold processFetched nsfwStage
  by_cases hsel : post.selftext = removalSentinel <;>
    cases hsd : opts.saveDeleted <;>
    simp [h1, h2, hsel, hsd, skipResult]

/-- Witness for `nsfw_only_skip` at a concrete removal-classified, non-adult
post with save-deleted enabled. -/
theorem nsfw_only_skip_witness :
    (processFetched { baseOptions with nsfwOnly := true, saveDeleted := true }
      (("p1").toList) removedSfwPost cleanFs).outcome = Outcome.skipped ∧
    (processFetched { baseOptions with nsfwOnly := true, saveDeleted := true }
      (("p1").toList) removedSfwPost cleanFs).dirCreated = none ∧
    (processFetched { baseOptions with nsfwOnly := true, saveDeleted := true }
      (("p1").toList) removedSfwPost cleanFs).decision = some Decision.skip :=
  nsfw_only_skip { baseOptions with nsfwOnly := true, saveDeleted := true }
    (("p1").toList) removedSfwPost cleanFs (by decide) (by decide)

/-- Claim C6: when the metadata fetch for an identifier fails, the iteration
classifies it failed, pushes the ledger row `id + ',' +
'https://www.reddit.com/' + id`, performs no filesystem or subprocess action,
and the batch goes on to process the surrounding identifiers exactly once each
(the fetch is consulted once per identifier, with no retry). -/
theorem fetch_failure_ledger (opts : Options) (id : List Char)
    (fetch : List Char → Option Post) (fsE : List Char → FsOracle)
    (h : fetch id = none) :
    (processId opts id (fetch id) (fsE id)).outcome = Outcome.failed ∧
    (processId opts id (fetch id) (fsE id)).ledgerEntry =
      some (id ++ (",https://www.reddit.com/").toList ++ id) ∧
    (processId opts id (fetch id) (fsE id)).dirCreated = none ∧
    (processId opts id (fetch id) (fsE id)).wrotePostJson = none ∧
    (processId opts id (fetch id) (fsE id)).galleryDl = none ∧
    ∀ ids1 ids2, runBatch opts (ids1 ++ id :: ids2) fetch fsE =
      runBatch opts ids1 fetch fsE ++
        processId opts id (fetch id) (fsE id) :: runBatch opts ids2 fetch fsE := by
  refine ⟨?_, ?_, ?_, ?_, ?_, ?_⟩
  · rw [h]; rfl
  · rw [h]; rfl
  · rw [h]; rfl
  · rw [h]; rfl
  · rw [h]; rfl
  · intro ids1 ids2
    simp [runBatch]

/-- Witness for `fetch_failure_ledger` at the identifier `a3` with an
always-failing fetch. -/
theorem fetch_failure_ledger_witness :
    (processId baseOptions (("a3").toList) none cleanFs).outcome = Outcome.failed ∧
    (processId baseOptions (("a3").toList) none cleanFs).ledgerEntry =
      some ((("a3").toList) ++ (",https://www.reddit.com/").toList ++ (("a3").toList)) ∧
    (processId baseOptions (("a3").toList) none cleanFs).dirCreated = none ∧
    (processId baseOptions (("a3").toList) none cleanFs).wrotePostJson = none ∧
    (processId baseOptions (("a3").toList) none cleanFs).galleryDl = none ∧
    ∀ ids1 ids2, runBatch baseOptions (ids1 ++ (("a3").toList) :: ids2)
        (fun _ => none) (fun _ => cleanFs) =
      runBatch baseOptions ids1 (fun _ => none) (fun _ => cleanFs) ++
        processId baseOptions (("a3").toList) none cleanFs ::
          runBatch baseOptions ids2 (fun _ => none) (fun _ => cleanFs) :=
  fetch_failure_ledger baseOptions (("a3").toList) (fun _ => none)
    (fun _ => cleanFs) rfl

/-- Claim C4: over the batch produced by the Identifier Source, each
identifier yields exactly one step result, every result carries exactly one of
the three classifications, and the counts of downloaded, skipped and failed
results sum to the batch size. -/
theorem outcome_partition (opts : Options) (content : List Char)
    (fetch : List Char → Option Post) (fsE : List Char → FsOracle) :
    (runBatch opts (getLinks content) fetch fsE).length = (getLinks content).length ∧
    (∀ r ∈ runBatch opts (getLinks content) fetch fsE,
      r.outcome = Outcome.downloaded ∨ r.outcome = Outcome.skipped ∨
        r.outcome = Outcome.failed) ∧
    (runBatch opts (getLinks content) fetch fsE).countP
        (fun r => r.outcome == Outcome.downloaded) +
      (runBatch opts (getLinks content) fetch fsE).countP
        (fun r => r.outcome == Outcome.skipped) +
      (runBatch opts (getLinks content) fetch fsE).countP
        (fun r => r.outcome == Outcome.failed) =
      (getLinks content).length := by
  refine ⟨by simp [runBatch], ?_, ?_⟩
  · intro r _
    cases h : r.outcome
    · exact Or.inl rfl
    · exact Or.inr (Or.inl rfl)
    · exact Or.inr (Or.inr rfl)
  · generalize getLinks content = ids
    induction ids with
    | nil => simp [runBatch]
    | cons id ids ih =>
      cases h : (processId opts id (fetch id) (fsE id)).outcome <;>
        simp [runBatch, List.countP_cons, h] at ih ⊢ <;> omega

/-- Witness for `outcome_partition` on a three-row input where the first post
downloads, the second is skipped and the third fails to fetch. -/
theorem outcome_partition_witness :
    (runBatch baseOptions
        (getLinks (("id,permalink\na1\na2\na3").toList))
        (fun id => if id = ("a1").toList then some plainPost
          else if id = ("a2").toList then some removedSfwPost else none)
        (fun _ => cleanFs)).length =
      (getLinks (("id,permalink\na1\na2\na3").toList)).length ∧
    (∀ r ∈ runBatch baseOptions
        (getLinks (("id,permalink\na1\na2\na3").toList))
        (fun id => if id = ("a1").toList then some plainPost
          else if id = ("a2").toList then some removedSfwPost else none)
        (fun _ => cleanFs),
      r.outcome = Outcome.downloaded ∨ r.outcome = Outcome.skipped ∨
        r.outcome = Outcome.failed) ∧
    (runBatch baseOptions
        (getLinks (("id,permalink\na1\na2\na3").toList))
        (fun id => if id = ("a1").toList then some plainPost
          else if id = ("a2").toList then some removedSfwPost else none)
        (fun _ => cleanFs)).countP
        (fun r => r.outcome == Outcome.downloaded) +
      (runBatch baseOptions
        (getLinks (("id,permalink\na1\na2\na3").toList))
        (fun id => if id = ("a1").toList then some plainPost
          else if id = ("a2").toList then some removedSfwPost else none)
        (fun _ => cleanFs)).countP
        (fun r => r.outcome == Outcome.skipped) +
      (runBatch baseOptions
        (getLinks (("id,permalink\na1\na2\na3").toList))
        (fun id => if id = ("a1").toList then some plainPost
          else if id = ("a2").toList then some removedSfwPost else none)
        (fun _ => cleanFs)).countP
        (fun r => r.outcome == Outcome.failed) =
      (getLinks (("id,permalink\na1\na2\na3").toList)).length :=
  outcome_partition baseOptions (("id,permalink\na1\na2\na3").toList)
    (fun id => if id = ("a1").toList then some plainPost
      else if id = ("a2").toList then some removedSfwPost else none)
    (fun _ => cleanFs)

/-- Claim C8: on a clean filesystem run, a non-skipped item processed with the
media-only policy active gets no post.json metadata artifact, while the
directory placement and the gallery-dl invocation happen and are identical to
those of the same item processed with the policy inactive (which does write
the artifact). -/
theorem media_only_frame (opts : Options) (id : List Char) (post : Post)
    (fsO : FsOracle) (hclean : fsO.procFailure = ProcFailure.noFailure)
    (hns : (processFetched { opts with mediaOnly := true } id post fsO).outcome ≠
      Outcome.skipped) :
    (processFetched { opts with mediaOnly := true } id post fsO).wrotePostJson = none ∧
    (processFetched { opts with mediaOnly := true } id post fsO).dirCreated =
      (processFetched { opts with mediaOnly := false } id post fsO).dirCreated ∧
    (processFetched { opts with mediaOnly := true } id post fsO).galleryDl =
      (processFetched { opts with mediaOnly := false } id post fsO).galleryDl ∧
    (processFetched { opts with mediaOnly := true } id post fsO).dirCreated.isSome = true ∧
    (processFetched { opts with mediaOnly := true } id post fsO).galleryDl.isSome = true ∧
    (processFetched { opts with mediaOnly := false } id post fsO).wrotePostJson.isSome = true := by
  by_cases hsel : post.selftext = removalSentinel <;>
    cases hsd : opts.saveDeleted <;>
    cases hn : (opts.nsfwOnly && !post.over_18) <;>
    simp [processFetched, nsfwStage, downloadStep, deliverMedia, skipResult,
      normalDir, deletedDir, hsel, hsd, hn, hclean] at hns ⊢

/-- Witness for `media_only_frame` at a concrete ordinary post on a clean
filesystem. -/
theorem media_only_frame_witness :
    (processFetched { baseOptions with mediaOnly := true }
      (("p2").toList) plainPost cleanFs).wrotePostJson = none ∧
    (processFetched { baseOptions with mediaOnly := true }
        (("p2").toList) plainPost cleanFs).dirCreated =
      (processFetched { baseOptions with mediaOnly := false }
        (("p2").toList) plainPost cleanFs).dirCreated ∧
    (processFetched { baseOptions with mediaOnly := true }
        (("p2").toList) plainPost cleanFs).galleryDl =
      (processFetched { baseOptions with mediaOnly := false }
        (("p2").toList) plainPost cleanFs).galleryDl ∧
    (processFetched { baseOptions with mediaOnly := true }
      (("p2").toList) plainPost cleanFs).dirCreated.isSome = true ∧
    (processFetched { baseOptions with mediaOnly := true }
      (("p2").toList) plainPost cleanFs).galleryDl.isSome = true ∧
    (processFetched { baseOptions with mediaOnly := false }
      (("p2").toList) plainPost cleanFs).wrotePostJson.isSome = true :=
  media_only_frame baseOptions (("p2").toList) plainPost cleanFs rfl (by decide)

/-- Claim C10: within an iteration a thumbnail request is made only with the
thumbnail field's own value as URL and only when that field does not contain
the substring "http"; for items that complete the download stage the request
happens exactly when the field lacks "http"; and an item whose thumbnail field
contains "http" never gets a thumbnail.jpg written. -/
theorem thumbnail_branch (opts : Options) (id : List Char) (post : Post)
    (fsO : FsOracle) :
    (∀ u, (processFetched opts id post fsO).thumbnailRequest = some u →
      u = post.thumbnail ∧ jsIncludes post.thumbnail (("http").toList) = false) ∧
    ((processFetched opts id post fsO).outcome = Outcome.downloaded →
      ((processFetched opts id post fsO).thumbnailRequest = some post.thumbnail ↔
        jsIncludes post.thumbnail (("http").toList) = false)) ∧
    (jsIncludes post.thumbnail (("http").toList) = true →
      (processFetched opts id post fsO).thumbnailWritten = none) := by
  by_cases hsel : post.selftext = removalSentinel <;>
    cases hsd : opts.saveDeleted <;>
    cases hn : (opts.nsfwOnly && !post.over_18) <;>
    cases hf : fsO.procFailure <;>
    cases hm : opts.mediaOnly <;>
    cases hinc : jsIncludes post.thumbnail ['h', 't', 't', 'p'] <;>
    simp [processFetched, nsfwStage, downloadStep, deliverMedia, skipResult,
      processingFailedResult, hsel, hsd, hn, hf, hm, hinc]

/-- Witness for `thumbnail_branch`: the sample post whose thumbnail is an http
URL never gets a thumbnail written. -/
theorem thumbnail_branch_witness :
    jsIncludes plainPost.thumbnail (("http").toList) = true ∧
    (processFetched baseOptions (("p2").toList) plainPost cleanFs).thumbnailWritten =
      none :=
  ⟨by decide,
    (thumbnail_branch baseOptions (("p2").toList) plainPost cleanFs).2.2 (by decide)⟩

/-- Claim C2 is false on the code: with a pre-existing failure file whose one
data row has identifier a1 and a current run that failed a1 again, the merged
file contains TWO rows whose first column is a1 (the bare carried-over
identifier and the fresh id,permalink row), because the `Set` deduplicates
full row strings, not identifiers. -/
theorem merge_by_identifier_counterexample :
    (("a1").toList) ∈ getLinks (("id,permalink\na1,https://www.reddit.com/a1").toList) ∧
    firstColumn (("a1,https://www.reddit.com/a1").toList) = ("a1").toList ∧
    (mergedFailedRows (some (("id,permalink\na1,https://www.reddit.com/a1").toList))
        [("a1,https://www.reddit.com/a1").toList]).countP
      (fun row => firstColumn row == ("a1").toList) = 2 := by
  decide

/-- Claim C2, amended: the merge is duplicate-free by full row string — the
rewritten failure file never contains two identical rows — but not by
identifier: an identifier present both in the pre-existing file and among the
run's failures can occupy two distinct rows (one bare, one id,permalink). -/
theorem merge_rows_nodup (E : Option (List Char)) (R : List (List Char)) :
    (mergedFailedRows E R).Nodup :=
  nodup_dedupeSeen _ []

/-- Claim C7 is false on the code: a file whose only data row has a blank
first column (a malformed row) does not fail the load; `getLinks` returns a
sequence of identifiers containing the empty identifier. -/
theorem malformed_row_counterexample :
    firstColumn ((",https://www.reddit.com/x").toList) = [] ∧
    getLinks (("id,permalink\n,https://www.reddit.com/x").toList) = [[]] := by
  decide

/-- Claim C7, amended: the Identifier Source performs no validation — the
load always yields exactly one identifier (the row's possibly blank first
column) per remaining data row, and has no MalformedInput failure mode. -/
theorem identifier_per_row (content : List Char) :
    (getLinks content).length = (dataRecords content).length ∧
    ∀ row ∈ dataRecords content, firstColumn row ∈ getLinks content := by
  constructor
  · simp [getLinks]
  · intro row hr
    exact List.mem_map_of_mem firstColumn hr

/-- Witness for `identifier_per_row` at a concrete one-row file. -/
theorem identifier_per_row_witness :
    firstColumn (("a1,u").toList) ∈ getLinks (("id,permalink\na1,u").toList) :=
  (identifier_per_row (("id,permalink\na1,u").toList)).2
    (("a1,u").toList) (by decide)

/-- Lemma: the ledger row pushed by an iteration that fetched successfully is
either absent or the processing-failure row `id + ',' +
'https://www.reddit.com' + permalink`. -/
theorem ledgerEntry_cases (opts : Options) (id : List Char) (post : Post)
    (fsO : FsOracle) :
    (processFetched opts id post fsO).ledgerEntry = none ∨
    (processFetched opts id post fsO).ledgerEntry =
      some (id ++ (",https://www.reddit.com").toList ++ post.permalink) := by
  by_cases hsel : post.selftext = removalSentinel <;>
    cases hsd : opts.saveDeleted <;>
    cases hn : (opts.nsfwOnly && !post.over_18) <;>
    cases hf : fsO.procFailure <;>
    cases hm : opts.mediaOnly <;>
    simp [processFetched, nsfwStage, downloadStep, deliverMedia, skipResult,
      processingFailedResult, hsel, hsd, hn, hf, hm]

/-- Claim C9: in the merged failure file, every row either comes from the
current run's failures or is the bare first column of a pre-existing row
(hence contains no comma and carries no permalink); and every failure row the
loop itself records has the two-column shape `id ++ ',' ++ rest`. -/
theorem ledger_row_provenance (E : List Char) (R : List (List Char)) :
    (∀ row ∈ mergedFailedRows (some E) R,
      row ∈ R ∨ (row ∈ getLinks E ∧ (',') ∉ row)) ∧
    (∀ (opts : Options) (ids : List (List Char))
        (fetch : List Char → Option Post) (fsE : List Char → FsOracle)
        (e : List Char),
      e ∈ extractFailures (runBatch opts ids fetch fsE) →
      ∃ id rest, id ∈ ids ∧ e = id ++ ',' :: rest) := by
  constructor
  · intro row hrow
    rw [mergedFailedRows, mem_jsSetDedupe] at hrow
    rcases List.mem_append.mp hrow with h | h
    · refine Or.inr ⟨h, ?_⟩
      obtain ⟨rec, _, hfc⟩ := List.mem_map.1 h
      exact hfc ▸ comma_not_mem_firstColumn rec
    · exact Or.inl h
  · intro opts ids fetch fsE e he
    rw [extractFailures] at he
    obtain ⟨r, hr, hentry⟩ := List.mem_filterMap.1 he
    rw [runBatch] at hr
    obtain ⟨id, hid, hpr⟩ := List.mem_map.1 hr
    refine ⟨id, ?_⟩
    cases hfetch : fetch id with
    | none =>
      rw [← hpr, hfetch] at hentry
      refine ⟨(("https://www.reddit.com/").toList) ++ id, hid, ?_⟩
      simp only [processId] at hentry
      have := Option.some.inj hentry
      rw [← this]
      simp
    | some post =>
      rw [← hpr, hfetch] at hentry
      simp only [processId] at hentry
      rcases ledgerEntry_cases opts id post (fsE id) with hc | hc
      · rw [hc] at hentry; cases hentry
      · rw [hc] at hentry
        refine ⟨(("https://www.reddit.com").toList) ++ post.permalink, hid, ?_⟩
        have := Option.some.inj hentry
        rw [← this]
        simp

/-- Witness for `ledger_row_provenance`: the failure row recorded for the
fetch-failed identifier zz has the two-column shape. -/
theorem ledger_row_provenance_witness :
    ∃ id rest, id ∈ [("zz").toList] ∧
      (("zz,https://www.reddit.com/zz").toList) = id ++ ',' :: rest :=
  (ledger_row_provenance [] []).2 baseOptions [("zz").toList]
    (fun _ => none) (fun _ => cleanFs)
    (("zz,https://www.reddit.com/zz").toList) (by decide)

/-- Claim C3 is false on the code: with no pre-existing file and the single
current-run failure row for a1, running finalize once and then a second time
on its own output (same current-run failures) produces different bytes — the
second file gains a bare a1 row. -/
theorem merge_idempotence_counterexample :
    finalizeLedger (some (finalizeLedger none [("a1,https://www.reddit.com/a1").toList]))
        [("a1,https://www.reddit.com/a1").toList] ≠
      finalizeLedger none [("a1,https://www.reddit.com/a1").toList] := by
  decide

/-- Core of the re-merge analysis: merging a written ledger back with the same
current-run failures preserves the set of identifiers (first columns) of the
rows, for any well-formed existing-id list and failure rows. -/
theorem merge_core (ids0 R : List (List Char))
    (hR : ∀ r ∈ R, r ≠ [] ∧ ('\n') ∉ r ∧ ('#') ∉ r)
    (h0 : ∀ y ∈ ids0, y ≠ [] ∧ ('\n') ∉ y ∧ ('#') ∉ y) :
    ∀ x, x ∈ (jsSetDedupe
        (getLinks (writeFailedCsv (jsSetDedupe (ids0 ++ R))) ++ R)).map firstColumn ↔
      x ∈ (jsSetDedupe (ids0 ++ R)).map firstColumn := by
  intro x
  by_cases hempty : jsSetDedupe (ids0 ++ R) = []
  · have happ : ids0 ++ R = [] := by
      apply List.eq_nil_iff_forall_not_mem.mpr
      intro y hy
      have hmem := (mem_jsSetDedupe y (ids0 ++ R)).mpr hy
      rw [hempty] at hmem
      simp at hmem
    obtain ⟨h1, h2⟩ := List.append_eq_nil.mp happ
    subst h2
    rw [hempty]
    have hget : getLinks (writeFailedCsv []) = [] := by decide
    rw [hget]
    simp [jsSetDedupe, dedupeSeen]
  · have hrows : ∀ r ∈ jsSetDedupe (ids0 ++ R), r ≠ [] ∧ ('\n') ∉ r ∧ ('#') ∉ r := by
      intro r hr
      rcases List.mem_append.mp ((mem_jsSetDedupe r _).mp hr) with h | h
      · exact h0 r h
      · exact hR r h
    rw [getLinks_writeFailedCsv _ hempty (fun r hr => (hrows r hr).2.1)
      (fun r hr => (hrows r hr).2.2) (fun r hr => (hrows r hr).1)]
    constructor
    · intro hx
      obtain ⟨y, hy, hfc⟩ := List.mem_map.1 hx
      rcases List.mem_append.mp ((mem_jsSetDedupe y _).mp hy) with h | h
      · obtain ⟨z, hz, hzfc⟩ := List.mem_map.1 h
        subst hzfc
        rw [firstColumn_firstColumn] at hfc
        exact hfc ▸ List.mem_map_of_mem firstColumn hz
      · have hy2 : y ∈ jsSetDedupe (ids0 ++ R) :=
          (mem_jsSetDedupe y _).mpr (List.mem_append.mpr (Or.inr h))
        exact hfc ▸ List.mem_map_of_mem firstColumn hy2
    · intro hx
      obtain ⟨z, hz, hzfc⟩ := List.mem_map.1 hx
      have h1 : firstColumn z ∈ (jsSetDedupe (ids0 ++ R)).map firstColumn :=
        List.mem_map_of_mem firstColumn hz
      have h2 : firstColumn z ∈
          jsSetDedupe ((jsSetDedupe (ids0 ++ R)).map firstColumn ++ R) :=
        (mem_jsSetDedupe _ _).mpr (List.mem_append.mpr (Or.inl h1))
      exact List.mem_map.2 ⟨firstColumn z, h2, by rw [firstColumn_firstColumn, hzfc]⟩

/-- Claim C3, amended: re-running the finalize merge on the file produced by
the first run, with the same current-run failures, is not byte-idempotent (see
the counterexample) — what re-running preserves is the identifier content:
the set of first columns of the rewritten rows equals that of the first run's
rows, for any pre-existing file whose data rows have nonempty first columns
and any current-run failure rows (nonempty, newline-free, hash-free, as the
loop produces them). -/
theorem merge_preserves_identifiers (E : Option (List Char)) (R : List (List Char))
    (hR : ∀ r ∈ R, r ≠ [] ∧ ('\n') ∉ r ∧ ('#') ∉ r)
    (hE : ∀ y ∈ existingFailedIds E, y ≠ []) :
    ∀ x, x ∈ (mergedFailedRows (some (finalizeLedger E R)) R).map firstColumn ↔
      x ∈ (mergedFailedRows E R).map firstColumn := by
  have h0 : ∀ y ∈ existingFailedIds E, y ≠ [] ∧ ('\n') ∉ y ∧ ('#') ∉ y := by
    intro y hy
    refine ⟨hE y hy, ?_, ?_⟩
    · cases E with
      | none => simp [existingFailedIds] at hy
      | some c => exact getLinks_no_newline c y (by simpa [existingFailedIds] using hy)
    · cases E with
      | none => simp [existingFailedIds] at hy
      | some c => exact getLinks_no_hash c y (by simpa [existingFailedIds] using hy)
  intro x
  have hm2 : mergedFailedRows (some (finalizeLedger E R)) R =
      jsSetDedupe
        (getLinks (writeFailedCsv (jsSetDedupe (existingFailedIds E ++ R))) ++ R) := rfl
  rw [hm2, mergedFailedRows]
  exact merge_core (existingFailedIds E) R hR h0 x

/-- Witness for `merge_preserves_identifiers` at the concrete first-run
scenario of the counterexample. -/
theorem merge_preserves_identifiers_witness :
    (∀ r ∈ [("a1,https://www.reddit.com/a1").toList],
      r ≠ [] ∧ ('\n') ∉ r ∧ ('#') ∉ r) ∧
    ((("a1").toList) ∈
        (mergedFailedRows
          (some (finalizeLedger none [("a1,https://www.reddit.com/a1").toList]))
          [("a1,https://www.reddit.com/a1").toList]).map firstColumn ↔
      (("a1").toList) ∈
        (mergedFailedRows none
          [("a1,https://www.reddit.com/a1").toList]).map firstColumn) :=
  ⟨by decide,
    merge_preserves_identifiers none [("a1,https://www.reddit.com/a1").toList]
      (by decide) (by decide) (("a1").toList)⟩
